import Mathlib

/-!
Verification of the TIMEX backtesting and cross-correlation engine against its
natural-language specification.

The development shallowly embeds the relevant parts of the repository:

* the reversible pointwise transforms and the FBProphet predict/train wrappers
  (from timex/data_prediction/prophet_predictor.py),
* the result-selection and reporting steps (from
  timex/data_visualization/functions.py),
* and, where the repository file timex/data_prediction/data_prediction.py is
  not available (only its tests and callers are), models built from the
  specification's own wording; each such definition carries a doc comment
  starting with "Modelled from the spec:".

Floating-point series values are embedded as exact rationals where the claims
are about finite concrete computations, and as real numbers where the claims
are about the logarithmic transforms.
-/

set_option allowUnsafeReducibility true in
attribute [semireducible] Rat.mul Rat.add Rat.sub Rat.inv Rat.ofScientific

set_option maxRecDepth 100000

/-! ## Transforms (spec section 4.1; data_prediction.py is not under src, so the
transform kinds and formulas are modelled from the spec and corroborated by the
tests in timex/tests/test_data_prediction.py) -/

/-- The transformation kinds of the spec's data model: none, log, log_modified. -/
inductive TransformKind
  | none
  | log
  | log_modified
deriving DecidableEq

/-- Modelled from the spec: pre_transformation (the Transform apply operation of
data_prediction.py, absent from src) applied pointwise to one value.
none is the identity; log is sign(x)*ln(abs x) (0 at 0, since sign 0 = 0);
log_modified is sign(x)*ln(abs x + 1). -/
noncomputable def pre_transformation (x : ℝ) : TransformKind → ℝ
  | TransformKind.none => x
  | TransformKind.log => Real.sign x * Real.log |x|
  | TransformKind.log_modified => Real.sign x * Real.log (|x| + 1)

/-- Modelled from the spec: post_transformation (the Transform invert operation
of data_prediction.py, absent from src) applied pointwise to one value.
none is the identity; log inverts to sign(y)*exp(abs y) (0 at 0);
log_modified inverts to sign(y)*(exp(abs y) - 1). -/
noncomputable def post_transformation (y : ℝ) : TransformKind → ℝ
  | TransformKind.none => y
  | TransformKind.log => Real.sign y * Real.exp |y|
  | TransformKind.log_modified => Real.sign y * (Real.exp |y| - 1)

/-! ## FBProphet.predict output handling
(src/timex/data_prediction/prophet_predictor.py, lines 115-133) -/

/-- The three prediction columns produced by the underlying Prophet model,
before the configured transformation is inverted on them. -/
structure ProphetForecast where
  yhat : List ℝ
  yhat_lower : List ℝ
  yhat_upper : List ℝ

/-- Embeds the column post-processing of FBProphet.predict
(prophet_predictor.py lines 127-129): the returned yhat column is the inverse
transform of the model's yhat, while BOTH returned bound columns are computed
from the model's yhat_upper column (line 128 of the source reads
forecast['yhat_upper'] when assigning 'yhat_lower'). -/
noncomputable def fbprophet_predict (k : TransformKind) (fc : ProphetForecast) :
    ProphetForecast where
  yhat := fc.yhat.map fun y => post_transformation y k
  yhat_lower := fc.yhat_upper.map fun y => post_transformation y k
  yhat_upper := fc.yhat_upper.map fun y => post_transformation y k

/-! ## Claim C1 -/

/-- C1: the claim says the returned yhat_lower is the inverse transform of the
model's yhat_lower. The code instead computes it from the model's yhat_upper:
on the forecast with yhat_lower = [0] and yhat_upper = [1] under the identity
transformation, the returned yhat_lower is [1], not the inverse transform [0]
of the model's yhat_lower. This contradicts the evident intent of lines
127-129 (each column inverted from itself); line 128 is a copy-paste slip. -/
theorem c1_yhat_lower_reads_upper :
    (fbprophet_predict TransformKind.none ⟨[0], [0], [1]⟩).yhat_lower = [1] ∧
    (ProphetForecast.yhat_lower ⟨[0], [0], [1]⟩).map
      (fun y => post_transformation y TransformKind.none) = [0] ∧
    (fbprophet_predict TransformKind.none ⟨[0], [0], [1]⟩).yhat_lower ≠
      (ProphetForecast.yhat_lower ⟨[0], [0], [1]⟩).map
        (fun y => post_transformation y TransformKind.none) := by
  refine ⟨?_, ?_, ?_⟩ <;> simp [fbprophet_predict, post_transformation]

/-! ## Claim C2 -/

/-- C2 counterexample: the claimed round trip fails for the log kind at x = 1
(an element of the claimed test range [-4..4]): pre_transformation collapses 1
to 0 and post_transformation maps 0 to 0, so the round trip returns 0, not 1 -
an error of 1, far beyond the claimed 1e-9 relative tolerance. -/
theorem c2_log_roundtrip_fails_at_one :
    post_transformation (pre_transformation 1 TransformKind.log) TransformKind.log = 0 ∧
    post_transformation (pre_transformation 1 TransformKind.log) TransformKind.log ≠ 1 := by
  have h1 : pre_transformation 1 TransformKind.log = 0 := by
    simp [pre_transformation]
  rw [h1]
  constructor
  · simp [post_transformation, Real.sign_zero]
  · simp [post_transformation, Real.sign_zero]

/-- C2 amended: the round trip invert(apply(x)) = x holds exactly for
log_modified at every real x, and for log only away from the collapsed band:
it holds whenever 1 < |x| (and at x = 0), but fails at x = 1 and x = -1 inside
the claimed test range [-4..4]. -/
theorem c2_roundtrip_amended :
    (∀ x : ℝ,
      post_transformation (pre_transformation x TransformKind.log_modified)
        TransformKind.log_modified = x) ∧
    (∀ x : ℝ, 1 < |x| →
      post_transformation (pre_transformation x TransformKind.log) TransformKind.log = x) := by
  constructor
  · intro x
    rcases lt_trichotomy x 0 with hx | hx | hx
    · have habs : |x| = -x := abs_of_neg hx
      have h1x : (1 : ℝ) < -x + 1 := by linarith
      have hlog : 0 < Real.log (-x + 1) := Real.log_pos h1x
      have hpre : pre_transformation x TransformKind.log_modified = -Real.log (-x + 1) := by
        simp [pre_transformation, habs, Real.sign_of_neg hx]
      rw [hpre]
      have hneg : -Real.log (-x + 1) < 0 := by linarith
      have habs2 : |(-Real.log (-x + 1))| = Real.log (-x + 1) := by
        rw [abs_of_neg hneg, neg_neg]
      simp only [post_transformation, Real.sign_of_neg hneg, habs2]
      rw [Real.exp_log (by linarith)]
      ring
    · subst hx
      simp [pre_transformation, post_transformation, Real.sign_zero]
    · have habs : |x| = x := abs_of_pos hx
      have h1x : (1 : ℝ) < x + 1 := by linarith
      have hlog : 0 < Real.log (x + 1) := Real.log_pos h1x
      have hpre : pre_transformation x TransformKind.log_modified = Real.log (x + 1) := by
        simp [pre_transformation, habs, Real.sign_of_pos hx]
      rw [hpre]
      have habs2 : |Real.log (x + 1)| = Real.log (x + 1) := abs_of_pos hlog
      simp only [post_transformation, Real.sign_of_pos hlog, habs2]
      rw [Real.exp_log (by linarith)]
      ring
  · intro x hx
    rcases lt_abs.mp hx with hpos | hneg
    · have hx0 : 0 < x := by linarith
      have habs : |x| = x := abs_of_pos hx0
      have hlog : 0 < Real.log x := Real.log_pos hpos
      have hpre : pre_transformation x TransformKind.log = Real.log x := by
        simp [pre_transformation, habs, Real.sign_of_pos hx0]
      rw [hpre]
      have habs2 : |Real.log x| = Real.log x := abs_of_pos hlog
      simp only [post_transformation, Real.sign_of_pos hlog, habs2]
      rw [Real.exp_log hx0]
      ring
    · have hx0 : x < 0 := by linarith
      have habs : |x| = -x := abs_of_neg hx0
      have hlog : 0 < Real.log (-x) := Real.log_pos (by linarith)
      have hpre : pre_transformation x TransformKind.log = -Real.log (-x) := by
        simp [pre_transformation, habs, Real.sign_of_neg hx0]
      rw [hpre]
      have hneg2 : -Real.log (-x) < 0 := by linarith
      have habs2 : |(-Real.log (-x))| = Real.log (-x) := by
        rw [abs_of_neg hneg2, neg_neg]
      simp only [post_transformation, Real.sign_of_neg hneg2, habs2]
      rw [Real.exp_log (by linarith)]
      ring

/-- C2 amended witness: the log round trip at the concrete point x = 3. -/
theorem c2_roundtrip_amended_witness :
    post_transformation (pre_transformation 3 TransformKind.log) TransformKind.log = 3 :=
  c2_roundtrip_amended.2 3 (by norm_num)

/-! ## Claim C8 -/

/-- C8: the log transform is sign(x)*ln(abs x) with 0 at 0, and applied
pointwise to [-4..4] it yields [-ln 4, -ln 3, -ln 2, 0, 0, 0, ln 2, ln 3, ln 4];
in particular -1, 0 and 1 all map to 0. -/
theorem c8_log_values_on_minus4_to_4 :
    (∀ x : ℝ, pre_transformation x TransformKind.log = Real.sign x * Real.log |x|) ∧
    ([-4, -3, -2, -1, 0, 1, 2, 3, 4] : List ℝ).map
        (fun x => pre_transformation x TransformKind.log) =
      [-Real.log 4, -Real.log 3, -Real.log 2, 0, 0, 0, Real.log 2, Real.log 3, Real.log 4] := by
  refine ⟨fun x => rfl, ?_⟩
  have hneg : ∀ x : ℝ, x < 0 → pre_transformation x TransformKind.log = -Real.log (-x) := by
    intro x hx
    simp [pre_transformation, abs_of_neg hx, Real.sign_of_neg hx]
  have hpos : ∀ x : ℝ, 0 < x → pre_transformation x TransformKind.log = Real.log x := by
    intro x hx
    simp [pre_transformation, abs_of_pos hx, Real.sign_of_pos hx]
  simp only [List.map_cons, List.map_nil]
  rw [hneg (-4) (by norm_num), hneg (-3) (by norm_num), hneg (-2) (by norm_num),
    hneg (-1) (by norm_num), hpos 1 (by norm_num), hpos 2 (by norm_num),
    hpos 3 (by norm_num), hpos 4 (by norm_num)]
  norm_num [pre_transformation, Real.sign_zero, Real.log_one]

/-! ## FBProphet.train and the caller's DataFrame
(src/timex/data_prediction/prophet_predictor.py, lines 27-65) -/

/-- A pandas DataFrame as used by FBProphet.train: a named index column plus a
list of named value columns. -/
structure PdFrame where
  indexName : String
  index : List ℚ
  cols : List (String × List ℚ)
deriving DecidableEq

/-- DataFrame.reset_index(): the old index becomes the leading column (keeping
its name) and the index is replaced by the positional range index. -/
def resetIndex (f : PdFrame) : PdFrame where
  indexName := ""
  index := (List.range f.index.length).map fun i => (i : ℚ)
  cols := (f.indexName, f.index) :: f.cols

/-- Assignment df.columns = names: replaces the column names positionally
(as used with exactly matching lengths in the source). -/
def assignColumns (names : List String) (f : PdFrame) : PdFrame where
  indexName := f.indexName
  index := f.index
  cols := names.zip (f.cols.map fun c => c.2)

/-- df.rename on the leading columns: the first names.length columns are
renamed positionally, the remaining columns are kept. -/
def renameLeading (names : List String) (f : PdFrame) : PdFrame where
  indexName := f.indexName
  index := f.index
  cols := ((names.zip f.cols).map fun nc => (nc.1, nc.2.2)) ++ f.cols.drop names.length

/-- df.join for identically indexed frames, as used in train: the columns of
the right frame are appended; the result is a NEW frame object. -/
def joinFrames (a b : PdFrame) : PdFrame where
  indexName := a.indexName
  index := a.index
  cols := a.cols ++ b.cols

/-- Embeds FBProphet.train (prophet_predictor.py lines 47-65) restricted to its
effect on data frames. The first component is the frame handed to
self.fbmodel.fit; the second component is the caller's input_data object after
the call. Without extra regressors the source mutates input_data in place
(reset_index(inplace=True), then the columns assignment); with extra
regressors the source first rebinds input_data to the new frame returned by
join, so every later in-place operation touches only the joined copy and the
caller's object is left unchanged. -/
def fbprophet_train (input : PdFrame) (extra : Option PdFrame) : PdFrame × PdFrame :=
  match extra with
  | Option.none =>
    (assignColumns ["ds", "y"] (resetIndex input), assignColumns ["ds", "y"] (resetIndex input))
  | Option.some r =>
    (renameLeading ["ds", "y"] (resetIndex (joinFrames input r)), input)

/-! ## Claim C10 -/

/-- C10 counterexample: train does NOT alter the caller's frame on every call.
With extra regressors given, the caller's frame is returned unchanged (the
join rebinding shields it), even though the reset-and-renamed frame the claim
predicts differs from it. -/
theorem c10_train_extra_regressors_no_mutation :
    (fbprophet_train ⟨"t", [0], [("a", [5])]⟩ (Option.some ⟨"t", [0], [("b", [7])]⟩)).2 =
      (⟨"t", [0], [("a", [5])]⟩ : PdFrame) ∧
    renameLeading ["ds", "y"]
        (resetIndex (joinFrames ⟨"t", [0], [("a", [5])]⟩ ⟨"t", [0], [("b", [7])]⟩)) ≠
      (⟨"t", [0], [("a", [5])]⟩ : PdFrame) := by
  decide

/-- C10 amended: FBProphet.train mutates the caller's frame in place only when
no extra regressors are given - it then resets the index and renames the
leading columns to ds and y, a genuine alteration (shown for any single-column
frame); when extra regressors are given, join produces a new frame and the
caller's DataFrame object is left unchanged. -/
theorem c10_train_mutation_amended :
    (∀ input : PdFrame,
      (fbprophet_train input Option.none).2 = assignColumns ["ds", "y"] (resetIndex input)) ∧
    (∀ (input r : PdFrame), (fbprophet_train input (Option.some r)).2 = input) ∧
    (∀ input : PdFrame, input.cols.length = 1 →
      (fbprophet_train input Option.none).2 ≠ input) := by
  refine ⟨fun input => rfl, fun input r => rfl, ?_⟩
  intro input hlen heq
  have hcols := congrArg (fun g => g.cols.length) heq
  simp only [fbprophet_train, assignColumns, resetIndex, List.length_zip, List.length_map,
    List.length_cons, List.length_nil, hlen] at hcols
  omega

/-- C10 amended witness: the in-place branch genuinely alters a concrete
single-column frame. -/
theorem c10_train_mutation_amended_witness :
    (fbprophet_train ⟨"t", [0], [("a", [5])]⟩ Option.none).2 ≠
      (⟨"t", [0], [("a", [5])]⟩ : PdFrame) :=
  c10_train_mutation_amended.2.2 ⟨"t", [0], [("a", [5])]⟩ (by decide)

/-! ## Configuration resolution (spec sections 3 and 6; the param_config
handling of data_prediction.py is not under src, so it is modelled from the
spec, with the default test percentage mirrored from the default-path test
test_launch_model_fbprophet_3 in src) -/

/-- A configuration value: the nested mapping holds numbers and strings. -/
inductive ConfigValue
  | nat (n : ℕ)
  | str (s : String)
deriving DecidableEq

/-- Lookup of a key in the configuration mapping. -/
def lookupConf (c : List (String × ConfigValue)) (k : String) : Option ConfigValue :=
  (c.find? fun p => p.1 == k).map fun p => p.2

/-- Numeric configuration lookup; non-numeric or missing values give none. -/
def getNatConf (c : List (String × ConfigValue)) (k : String) : Option ℕ :=
  match lookupConf c k with
  | Option.some (ConfigValue.nat n) => Option.some n
  | _ => Option.none

/-- String configuration lookup; non-string or missing values give none. -/
def getStrConf (c : List (String × ConfigValue)) (k : String) : Option String :=
  match lookupConf c k with
  | Option.some (ConfigValue.str s) => Option.some s
  | _ => Option.none

/-- The resolved model parameters of the spec's ModelConfig data model. -/
structure ModelParameters where
  test_values : ℕ
  delta_training_values : ℕ
  prediction_lags : ℕ
  transformation : String
  main_accuracy_estimator : String
deriving DecidableEq

/-- The configuration keys the resolution consults (spec section 6). -/
def knownModelKeys : List String :=
  ["test_values", "test_percentage", "delta_training_values", "delta_training_percentage",
   "prediction_lags", "transformation", "main_accuracy_estimator"]

/-- Modelled from the spec: resolution of model parameters from the
configuration mapping (the launch_model configuration handling of
data_prediction.py, absent from src). Absolute values win over percentages;
percentages are resolved against the series length rounding down with a floor
of one; missing keys fall back to the documented defaults
(delta_training_percentage = 20, transformation = log,
main_accuracy_estimator = mae, and - mirrored from the default-path test in
src - test_percentage = 10 and prediction_lags = 10); keys outside
knownModelKeys are never consulted. -/
def resolveModelParams (c : List (String × ConfigValue)) (seriesLen : ℕ) : ModelParameters where
  test_values :=
    match getNatConf c "test_values" with
    | Option.some v => v
    | Option.none => max 1 (((getNatConf c "test_percentage").getD 10) * seriesLen / 100)
  delta_training_values :=
    match getNatConf c "delta_training_values" with
    | Option.some v => v
    | Option.none => max 1 (((getNatConf c "delta_training_percentage").getD 20) * seriesLen / 100)
  prediction_lags := (getNatConf c "prediction_lags").getD 10
  transformation := (getStrConf c "transformation").getD "log"
  main_accuracy_estimator := (getStrConf c "main_accuracy_estimator").getD "mae"

/-- Looking up a key skips an unequal leading configuration entry. -/
theorem lookupConf_cons_ne (k : String) (v : ConfigValue) (c : List (String × ConfigValue))
    (k' : String) (h : k ≠ k') : lookupConf ((k, v) :: c) k' = lookupConf c k' := by
  unfold lookupConf
  rw [List.find?_cons_of_neg]
  simp [h]

/-- Numeric lookup skips an unequal leading configuration entry. -/
theorem getNatConf_cons_ne (k : String) (v : ConfigValue) (c : List (String × ConfigValue))
    (k' : String) (h : k ≠ k') : getNatConf ((k, v) :: c) k' = getNatConf c k' := by
  unfold getNatConf
  rw [lookupConf_cons_ne k v c k' h]

/-- String lookup skips an unequal leading configuration entry. -/
theorem getStrConf_cons_ne (k : String) (v : ConfigValue) (c : List (String × ConfigValue))
    (k' : String) (h : k ≠ k') : getStrConf ((k, v) :: c) k' = getStrConf c k' := by
  unfold getStrConf
  rw [lookupConf_cons_ne k v c k' h]

/-! ## Claim C9 -/

/-- C9: a configuration holding only the unknown key verbose resolves, on a
100-point series, to the documented defaults test_values = 10,
delta_training_values = 20, transformation = log and
main_accuracy_estimator = mae; and any entry whose key is not one of the known
model-parameter keys is ignored by the resolution. -/
theorem c9_defaults_and_unknown_keys :
    resolveModelParams [("verbose", ConfigValue.str "no")] 100 =
      ⟨10, 20, 10, "log", "mae"⟩ ∧
    ∀ (k : String) (v : ConfigValue) (c : List (String × ConfigValue)) (n : ℕ),
      k ∉ knownModelKeys → resolveModelParams ((k, v) :: c) n = resolveModelParams c n := by
  constructor
  · decide
  · intro k v c n hk
    simp only [knownModelKeys, List.mem_cons, not_or] at hk
    obtain ⟨h1, h2, h3, h4, h5, h6, h7, h8⟩ := hk
    unfold resolveModelParams
    rw [getNatConf_cons_ne k v c _ h1, getNatConf_cons_ne k v c _ h2,
      getNatConf_cons_ne k v c _ h3, getNatConf_cons_ne k v c _ h4,
      getNatConf_cons_ne k v c _ h5, getStrConf_cons_ne k v c _ h6,
      getStrConf_cons_ne k v c _ h7]

/-- C9 witness: the unknown key verbose is concretely ignored. -/
theorem c9_defaults_and_unknown_keys_witness :
    resolveModelParams [("verbose", ConfigValue.str "no")] 100 = resolveModelParams [] 100 :=
  c9_defaults_and_unknown_keys.2 "verbose" (ConfigValue.str "no") [] 100 (by decide)

/-! ## Backtest engine (spec section 4.2; the launch_model loop of
data_prediction.py is not under src, so the window arithmetic and the
prediction-length contract are modelled from the spec) -/

/-- One backtest window result: the timestamp (here: position) of the first
training point used, and the prediction series produced for that window. -/
structure SingleWindowResult where
  first_used_index : ℕ
  prediction : List ℚ
deriving DecidableEq

/-- Modelled from the spec: the start positions of the training windows
(spec section 4.2 step 2). With n points, t test values and stride d there are
floor((n - t) / d) windows, window i starting at n - t - (i+1)*d, plus the one
additional use-all-available-history window starting at 0. -/
def windowStarts (n t d : ℕ) : List ℕ :=
  ((List.range ((n - t) / d)).map fun i => n - t - (i + 1) * d) ++ [0]

/-- Modelled from the spec: the backtest loop of launch_model
(spec section 4.2 steps 2-3; data_prediction.py absent from src). For each
window start the training slice is series[start : n - t]; the engine requests
the prediction over a future index spanning the training slice, the t held-out
test values and the lags extra future points, so the prediction returned by
the (opaque) model has exactly that length. The model is embedded as a
function from future-index positions to values. -/
def launch_model (series : List ℚ) (t d lags : ℕ) (model : ℕ → ℚ) :
    List SingleWindowResult :=
  (windowStarts series.length t d).map fun s =>
    { first_used_index := s
      prediction := (List.range (((series.take (series.length - t)).drop s).length + t + lags)).map model }

/-! ## Claim C3 -/

/-- C3: on a 100-point series with test_values = 10 and
delta_training_values = 20 the backtest produces exactly 5 window results, and
each result's prediction length equals the length of that window's used
training slice (the series from first_used_index with the final 10 test values
removed) plus 10 plus prediction_lags. -/
theorem c3_backtest_windows (series : List ℚ) (lags : ℕ) (model : ℕ → ℚ)
    (h : series.length = 100) :
    (launch_model series 10 20 lags model).length = 5 ∧
    ∀ r ∈ launch_model series 10 20 lags model,
      r.prediction.length =
        ((series.drop r.first_used_index).take ((series.drop r.first_used_index).length - 10)).length
          + 10 + lags := by
  have hw : windowStarts series.length 10 20 = [70, 50, 30, 10, 0] := by
    rw [h]
    decide
  constructor
  · simp [launch_model, hw]
  · intro r hr
    simp only [launch_model, hw, List.map_cons, List.map_nil, List.mem_cons,
      List.not_mem_nil, or_false] at hr
    rcases hr with hr | hr | hr | hr | hr <;>
      subst hr <;>
        simp [List.length_take, List.length_drop, h]

/-- C3 witness: the concrete backtest on a constant 100-point series with 10
prediction lags. -/
theorem c3_backtest_windows_witness :
    (launch_model (List.replicate 100 0) 10 20 10 fun _ => 0).length = 5 ∧
    ∀ r ∈ launch_model (List.replicate 100 0) 10 20 10 fun _ => 0,
      r.prediction.length =
        (((List.replicate 100 (0 : ℚ)).drop r.first_used_index).take
            (((List.replicate 100 (0 : ℚ)).drop r.first_used_index).length - 10)).length
          + 10 + 10 :=
  c3_backtest_windows (List.replicate 100 0) 10 (fun _ => 0) (by simp)

/-! ## Cross-correlation (spec section 4.4; calc_xcorr of data_prediction.py is
not under src, so the per-lag correlation table is modelled from the spec; the
best-lag extraction of cross_correlation_graph IS under src, in
timex/data_visualization/functions.py lines 442-446) -/

/-- numpy.roll: rotate a list right by k positions. -/
def npRoll (xs : List ℚ) (k : ℕ) : List ℚ :=
  xs.drop (xs.length - k % xs.length) ++ xs.take (xs.length - k % xs.length)

/-- Modelled from the spec: the pairs of (target, other) values compared at an
integer lag. A negative lag -k shifts the other column back by k (pairing
target[n] with other[n+k]), a positive lag k shifts it forward (pairing
target[n] with other[n-k]); only the overlap where both are defined is kept. -/
def lagPairs (xs ys : List ℚ) (l : ℤ) : List (ℚ × ℚ) :=
  if 0 ≤ l then (xs.drop l.natAbs).zip ys else xs.zip (ys.drop l.natAbs)

/-- The square of the Pearson correlation coefficient of a list of pairs,
as an exact rational: cov^2 / (var_x * var_y) with the usual n-scaled sums.
The square is used because the engine only ever ranks correlations by absolute
value, and t maps to t^2 is strictly monotone on t at least 0; a degenerate
zero variance gives 0 (rational division by zero), standing for the undefined
coefficient. -/
def pearsonSq (ps : List (ℚ × ℚ)) : ℚ :=
  let n : ℚ := ps.length
  let sx := (ps.map fun p => p.1).sum
  let sy := (ps.map fun p => p.2).sum
  let sxx := (ps.map fun p => p.1 * p.1).sum
  let syy := (ps.map fun p => p.2 * p.2).sum
  let sxy := (ps.map fun p => p.1 * p.2).sum
  (n * sxy - sx * sy) ^ 2 / ((n * sxx - sx * sx) * (n * syy - sy * sy))

/-- The sign of a rational number, as used by the Kendall statistic. -/
def sgnQ (q : ℚ) : ℤ :=
  if 0 < q then 1 else if q < 0 then -1 else 0

/-- The Kendall S statistic: concordant minus discordant pairs. -/
def kendallS : List (ℚ × ℚ) → ℤ
  | [] => 0
  | p :: rest => ((rest.map fun q => sgnQ ((p.1 - q.1) * (p.2 - q.2))).sum) + kendallS rest

/-- The square of the Kendall tau coefficient S / (n(n-1)/2) (the tie-free
form; the series under test have pairwise distinct values). -/
def kendallSq (ps : List (ℚ × ℚ)) : ℚ :=
  ((kendallS ps : ℚ)) ^ 2 / (((ps.length : ℚ)) * ((ps.length : ℚ) - 1) / 2) ^ 2

/-- The 0-based rank of a value inside a list (tie-free form, as for the
pairwise-distinct series under test). -/
def rankIn (xs : List ℚ) (a : ℚ) : ℚ := ((xs.filter fun b => b < a).length : ℚ)

/-- The square of the Spearman coefficient: Pearson on the rank vectors. -/
def spearmanSq (ps : List (ℚ × ℚ)) : ℚ :=
  pearsonSq (ps.map fun p => (rankIn (ps.map fun r => r.1) p.1, rankIn (ps.map fun r => r.2) p.2))

/-- The square of the matlab-normalized cross-correlation at a lag: the raw
lagged product sum, normalized by the geometric mean of the zero-lag
autocorrelations (spec section 4.4), squared. -/
def matlabSq (xs ys : List ℚ) (l : ℤ) : ℚ :=
  (((lagPairs xs ys l).map fun p => p.1 * p.2).sum) ^ 2 /
    (((xs.map fun a => a * a).sum) * ((ys.map fun a => a * a).sum))

/-- The four correlation modes of calc_xcorr. -/
inductive XcorrMode
  | pearson
  | kendall
  | spearman
  | matlab_normalized
deriving DecidableEq

/-- The squared correlation of one mode at one lag. -/
def xcorrSqAt (m : XcorrMode) (xs ys : List ℚ) (l : ℤ) : ℚ :=
  match m with
  | XcorrMode.pearson => pearsonSq (lagPairs xs ys l)
  | XcorrMode.kendall => kendallSq (lagPairs xs ys l)
  | XcorrMode.spearman => spearmanSq (lagPairs xs ys l)
  | XcorrMode.matlab_normalized => matlabSq xs ys l

/-- The ascending lag index -m..m of a cross-correlation result
(spec section 3: a series indexed by integer lag in [-max_lags, max_lags]). -/
def lagRange (m : ℕ) : List ℤ := (List.range (2 * m + 1)).map fun i => (i : ℤ) - (m : ℤ)

/-- Modelled from the spec: calc_xcorr for one mode and one non-target column
(data_prediction.py absent from src): the lag-indexed correlation curve over
[-max_lags, max_lags], stored as squared coefficients (monotone in the
absolute coefficient, which is all the best-lag ranking consumes). -/
def calc_xcorr (m : XcorrMode) (xs ys : List ℚ) (maxLags : ℕ) : List (ℤ × ℚ) :=
  (lagRange maxLags).map fun l => (l, xcorrSqAt m xs ys l)

/-- Absolute value of a rational, written as the source's branch on the sign
so that concrete tables evaluate by kernel reduction. -/
def absQ (q : ℚ) : ℚ := if q < 0 then -q else q

/-- absQ agrees with the mathematical absolute value. -/
theorem absQ_eq_abs (q : ℚ) : absQ q = |q| := by
  unfold absQ
  by_cases h : q < 0
  · rw [if_pos h, abs_of_neg h]
  · rw [if_neg h, abs_of_nonneg (not_lt.mp h)]

/-- The lag order claimed by the spec for tie-breaking: scanning outward from
lag 0, the negative lag of each magnitude before the positive one. -/
def outwardLags (m : ℕ) : List ℤ :=
  0 :: (List.range m).flatMap fun k => [-((k : ℤ) + 1), (k : ℤ) + 1]

/-- Value lookup at a lag in a lag-indexed table. -/
def lookupLag (rows : List (ℤ × ℚ)) (l : ℤ) : Option ℚ :=
  (rows.find? fun p => p.1 == l).map fun p => p.2

/-- Modelled from the spec (section 4.4) and following the claim's words: the
best lag is the lag with maximal absolute correlation, ties broken by the
smallest absolute lag - the first occurrence scanning outward from lag 0,
replacing the incumbent only on a strict improvement. -/
def specBestLag (rows : List (ℤ × ℚ)) (m : ℕ) : Option ℤ :=
  ((outwardLags m).foldl (fun acc l =>
    match lookupLag rows l with
    | Option.none => acc
    | Option.some v =>
      match acc with
      | Option.none => Option.some (l, v)
      | Option.some q => if absQ q.2 < absQ v then Option.some (l, v) else Option.some q)
    Option.none).map fun p => p.1

/-- One step of the pandas abs().idxmax() scan of cross_correlation_graph
(functions.py line 443): the incumbent is replaced only when a later entry has
strictly larger absolute value, so the FIRST entry in index order attaining
the maximum wins. -/
def idxmaxStep (acc : Option (ℤ × ℚ)) (p : ℤ × ℚ) : Option (ℤ × ℚ) :=
  match acc with
  | Option.none => Option.some p
  | Option.some q => if absQ q.2 < absQ p.2 then Option.some p else Option.some q

/-- Embeds index_of_max = xcorr[mode][col].abs().idxmax() together with
corr = xcorr[mode].loc[index_of_max, col] (functions.py lines 443-444): the
first row of the lag-indexed table attaining the maximal absolute value. -/
def idxmaxAbs (rows : List (ℤ × ℚ)) : Option (ℤ × ℚ) :=
  rows.foldl idxmaxStep Option.none

/-! ## Claim C5 -/

/-- The target series of the cross-correlation test: x[n] = 0.84^n, n = 0..15. -/
def xSeriesTest : List ℚ := (List.range 16).map fun n => (0.84 : ℚ) ^ n

/-- The other series: y = numpy.roll(x, 5). -/
def ySeriesTest : List ℚ := npRoll xSeriesTest 5

/-- C5: for x[n] = 0.84^n (n = 0..15) and y = roll(x, 5), the best lag of
calc_xcorr with max_lags = 10 for (target = x, column = y) is exactly -5 for
every mode - pearson, kendall, spearman and matlab_normalized - under the
spec's best-lag rule (maximal absolute correlation, ties broken by the
smallest absolute lag scanning outward from lag 0). The tie-break is load
bearing: in exact arithmetic the absolute correlation is 1 at every lag from
-5 to -10 for pearson, kendall and spearman, and the outward scan selects -5. -/
theorem c5_best_lag_minus_five :
    specBestLag (calc_xcorr XcorrMode.pearson xSeriesTest ySeriesTest 10) 10 =
      Option.some (-5) ∧
    specBestLag (calc_xcorr XcorrMode.kendall xSeriesTest ySeriesTest 10) 10 =
      Option.some (-5) ∧
    specBestLag (calc_xcorr XcorrMode.spearman xSeriesTest ySeriesTest 10) 10 =
      Option.some (-5) ∧
    specBestLag (calc_xcorr XcorrMode.matlab_normalized xSeriesTest ySeriesTest 10) 10 =
      Option.some (-5) := by
  refine ⟨by decide, by decide, by decide, by decide⟩

/-! ## Claim C4 -/

/-- C4 counterexample: the reported best lag of cross_correlation_graph is the
pandas abs().idxmax(), the first maximizer in ascending lag order, NOT the
claimed smallest-absolute-lag tie-break. On the table with absolute
correlation 1 at lags -1 and 0 (and 1/2 at lag 1) the code reports -1 while
the claimed outward scan reports 0. -/
theorem c4_tie_break_counterexample :
    (idxmaxAbs [((-1 : ℤ), (1 : ℚ)), (0, 1), (1, 1 / 2)]).map (fun p => p.1) =
      Option.some (-1) ∧
    specBestLag [((-1 : ℤ), (1 : ℚ)), (0, 1), (1, 1 / 2)] 1 = Option.some 0 ∧
    (idxmaxAbs [((-1 : ℤ), (1 : ℚ)), (0, 1), (1, 1 / 2)]).map (fun p => p.1) ≠
      specBestLag [((-1 : ℤ), (1 : ℚ)), (0, 1), (1, 1 / 2)] 1 := by
  refine ⟨by decide, by decide, by decide⟩

/-- Accumulator invariant of the abs().idxmax() fold: starting from incumbent
q over a tail whose lag keys all exceed q's and are strictly increasing, the
fold returns a row that is the incumbent or a tail member, has maximal
absolute value among both, keeps the incumbent on ties, and among equal-value
rows carries the least lag. -/
theorem idxmaxAbs_go_spec :
    ∀ (rest : List (ℤ × ℚ)) (q r : ℤ × ℚ),
      (∀ p ∈ rest, q.1 < p.1) →
      List.Pairwise (fun a b => a.1 < b.1) rest →
      List.foldl idxmaxStep (Option.some q) rest = Option.some r →
      (r = q ∨ r ∈ rest) ∧ |q.2| ≤ |r.2| ∧ (∀ p ∈ rest, |p.2| ≤ |r.2|) ∧
        (|q.2| = |r.2| → r = q) ∧ (∀ p ∈ rest, |p.2| = |r.2| → r.1 ≤ p.1) := by
  intro rest
  induction rest with
  | nil =>
    intro q r _ _ hf
    simp only [List.foldl_nil, Option.some.injEq] at hf
    subst hf
    exact ⟨Or.inl rfl, le_refl _, by simp, fun _ => rfl, by simp⟩
  | cons p t ih =>
    intro q r hq hpw hf
    have hpw_t : List.Pairwise (fun a b => a.1 < b.1) t := (List.pairwise_cons.mp hpw).2
    have hp_t : ∀ p' ∈ t, p.1 < p'.1 := (List.pairwise_cons.mp hpw).1
    have hq_p : q.1 < p.1 := hq p (List.mem_cons_self p t)
    have hq_t : ∀ p' ∈ t, q.1 < p'.1 := fun p' hp' => hq p' (List.mem_cons_of_mem p hp')
    simp only [List.foldl_cons, idxmaxStep, absQ_eq_abs] at hf
    by_cases hc : |q.2| < |p.2|
    · rw [if_pos hc] at hf
      obtain ⟨hmem, hle1, hall, htie, hleast⟩ := ih p r hp_t hpw_t hf
      refine ⟨?_, ?_, ?_, ?_, ?_⟩
      · rcases hmem with hm | hm
        · exact Or.inr (hm ▸ List.mem_cons_self p t)
        · exact Or.inr (List.mem_cons_of_mem p hm)
      · exact le_of_lt (lt_of_lt_of_le hc hle1)
      · intro p' hp'
        rcases List.mem_cons.mp hp' with hm | hm
        · exact hm ▸ hle1
        · exact hall p' hm
      · intro habs
        exact absurd (lt_of_lt_of_le hc hle1) (by rw [habs]; exact lt_irrefl _)
      · intro p' hp' habs
        rcases List.mem_cons.mp hp' with hm | hm
        · subst hm
          exact le_of_eq (congrArg (fun z => z.1) (htie habs))
        · exact hleast p' hm habs
    · rw [if_neg hc] at hf
      have hple : |p.2| ≤ |q.2| := not_lt.mp hc
      obtain ⟨hmem, hle1, hall, htie, hleast⟩ := ih q r hq_t hpw_t hf
      refine ⟨?_, ?_, ?_, ?_, ?_⟩
      · rcases hmem with hm | hm
        · exact Or.inl hm
        · exact Or.inr (List.mem_cons_of_mem p hm)
      · exact hle1
      · intro p' hp'
        rcases List.mem_cons.mp hp' with hm | hm
        · exact hm ▸ le_trans hple hle1
        · exact hall p' hm
      · exact htie
      · intro p' hp' habs
        rcases List.mem_cons.mp hp' with hm | hm
        · subst hm
          have hq_eq : |q.2| = |r.2| := le_antisymm hle1 (habs ▸ hple)
          rw [htie hq_eq]
          exact le_of_lt hq_p
        · exact hleast p' hm habs

/-- C4 amended: for every lag-indexed table with strictly increasing lag keys
(as calc_xcorr produces), the reported best lag of cross_correlation_graph is
a lag of the table at which the absolute correlation is maximal, and when
several lags attain that maximum the tie is broken by the SMALLEST LAG VALUE
(the first occurrence in ascending index order, i.e. the most negative
maximizer), not by the smallest absolute lag. -/
theorem c4_idxmax_max_abs_least_lag (rows : List (ℤ × ℚ)) (l : ℤ) (v : ℚ)
    (hpw : List.Pairwise (fun a b => a.1 < b.1) rows)
    (h : idxmaxAbs rows = Option.some (l, v)) :
    (l, v) ∈ rows ∧ (∀ p ∈ rows, |p.2| ≤ |v|) ∧
      ∀ p ∈ rows, |p.2| = |v| → l ≤ p.1 := by
  cases rows with
  | nil =>
    simp [idxmaxAbs] at h
  | cons p t =>
    have hstep : idxmaxAbs (p :: t) = List.foldl idxmaxStep (Option.some p) t := rfl
    rw [hstep] at h
    obtain ⟨hmem, hle1, hall, htie, hleast⟩ :=
      idxmaxAbs_go_spec t p (l, v) (List.pairwise_cons.mp hpw).1 (List.pairwise_cons.mp hpw).2 h
    refine ⟨?_, ?_, ?_⟩
    · rcases hmem with hm | hm
      · exact hm ▸ List.mem_cons_self p t
      · exact List.mem_cons_of_mem p hm
    · intro p' hp'
      rcases List.mem_cons.mp hp' with hm | hm
      · subst hm
        exact hle1
      · exact hall p' hm
    · intro p' hp' habs
      rcases List.mem_cons.mp hp' with hm | hm
      · subst hm
        have habs2 : |p'.2| = |(l, v).2| := habs
        exact le_of_eq (congrArg (fun z => z.1) (htie (le_antisymm hle1 (le_of_eq habs2.symm))))
      · exact hleast p' hm habs

/-- C4 amended witness: on the concrete sorted table with ties at lags 0 and 1
the reported row is (0, 1), and it is a member, maximal in absolute value, and
the least lag among the maximizers. -/
theorem c4_idxmax_max_abs_least_lag_witness :
    ((0 : ℤ), (1 : ℚ)) ∈ [((-1 : ℤ), (1 / 2 : ℚ)), (0, 1), (1, 1)] ∧
      (∀ p ∈ [((-1 : ℤ), (1 / 2 : ℚ)), (0, 1), (1, 1)], |p.2| ≤ |(1 : ℚ)|) ∧
      ∀ p ∈ [((-1 : ℤ), (1 / 2 : ℚ)), (0, 1), (1, 1)], |p.2| = |(1 : ℚ)| → (0 : ℤ) ≤ p.1 :=
  c4_idxmax_max_abs_least_lag [((-1 : ℤ), (1 / 2 : ℚ)), (0, 1), (1, 1)] 0 1
    (by decide) (by decide)

/-! ## Result selection and reporting
(src/timex/data_visualization/functions.py: create_scenario_children lines
106-125, performance_plot lines 855-860) -/

/-- A cell value of a prediction frame: a number, or the string written into
the frame by performance_plot. -/
inductive PValue
  | num (q : ℚ)
  | str (s : String)
deriving DecidableEq

/-- A prediction DataFrame: named columns of cell values. -/
structure PredFrame where
  cols : List (String × List PValue)
deriving DecidableEq

/-- The validation metrics attached to one window result
(the ValidationPerformance object of the source). -/
structure ValidationPerformance where
  first_used_index : ℕ
  MAE : ℚ
  MSE : ℚ
  RMSE : ℚ
  AM : ℚ
deriving DecidableEq

/-- One backtest window result as consumed by the reporting layer
(the SingleResult object of the source): the prediction frame and its
metrics, held by reference. -/
structure SingleResult where
  prediction : PredFrame
  testing_performances : ValidationPerformance
deriving DecidableEq

/-- The configured main_accuracy_estimator values. -/
inductive AccuracyEstimator
  | mae
  | mse
  | rmse
  | am
deriving DecidableEq

/-- getattr(x.testing_performances, main_accuracy_estimator.upper()):
the metric the results are sorted by. -/
def metricOf (tp : ValidationPerformance) : AccuracyEstimator → ℚ
  | AccuracyEstimator.mae => tp.MAE
  | AccuracyEstimator.mse => tp.MSE
  | AccuracyEstimator.rmse => tp.RMSE
  | AccuracyEstimator.am => tp.AM

/-- The sort key order of create_scenario_children line 113. -/
def leBy (e : AccuracyEstimator) (a b : SingleResult) : Prop :=
  metricOf a.testing_performances e ≤ metricOf b.testing_performances e

instance (e : AccuracyEstimator) : DecidableRel (leBy e) :=
  fun a b =>
    inferInstanceAs (Decidable (metricOf a.testing_performances e ≤ metricOf b.testing_performances e))

instance (e : AccuracyEstimator) : IsTotal SingleResult (leBy e) :=
  ⟨fun _ _ => le_total _ _⟩

instance (e : AccuracyEstimator) : IsTrans SingleResult (leBy e) :=
  ⟨fun _ _ _ hab hbc => le_trans hab hbc⟩

/-- model_results.sort(key = metric) of create_scenario_children line 113:
Python's stable ascending in-place sort, embedded as insertion sort (stable,
ascending). -/
def sortModelResults (rs : List SingleResult) (e : AccuracyEstimator) : List SingleResult :=
  List.insertionSort (leBy e) rs

/-- predicted_data.iloc[:, 0] = "nan" of performance_plot line 857: every cell
of the FIRST column of the frame is overwritten with the string nan, in place;
the remaining columns are untouched. A frame without columns is returned
unchanged (the source would raise there; the frames reaching this call always
carry at least the yhat column). -/
def nanFirstColumn (f : PredFrame) : PredFrame :=
  match f.cols with
  | [] => f
  | c :: rest => ⟨(c.1, c.2.map fun _ => PValue.str "nan") :: rest⟩

/-- The best result as it stands after the reporting layer ran: its prediction
frame object was mutated by performance_plot, its metrics object was not. -/
def mutateBestPrediction (b : SingleResult) : SingleResult :=
  ⟨nanFirstColumn b.prediction, b.testing_performances⟩

/-- The observable outcome of the per-model reporting step: the model.results
list after the in-place sort and the plots ran, the frame handed to
prediction_plot as the headline forecast, and the metric objects gathered for
the performance report. -/
structure ScenarioChildren where
  results : List SingleResult
  best_prediction : Option PredFrame
  testing_performances : List ValidationPerformance
deriving DecidableEq

/-- Embeds the per-model body of create_scenario_children (functions.py lines
106-125) together with the frame mutation of performance_plot (line 857): the
results are sorted ascending in place by the configured metric; the first
element's prediction becomes the headline forecast (used by prediction_plot
before performance_plot mutates that same frame object); the metrics of ALL
sorted results are exposed; afterwards the best result's prediction frame
carries the overwritten first column. -/
def create_scenario_children (rs : List SingleResult) (e : AccuracyEstimator) : ScenarioChildren :=
  match sortModelResults rs e with
  | [] => ⟨[], Option.none, []⟩
  | b :: rest =>
    ⟨mutateBestPrediction b :: rest, Option.some b.prediction,
      (b :: rest).map fun r => r.testing_performances⟩

/-! ## Claim C6 -/

/-- C6: after the backtest the full collection of window results is exposed
without discarding any (the sorted list is a permutation of the input and the
exposed collection keeps its length, with one metrics entry per result), the
collection is sorted ascending by the configured main_accuracy_estimator
metric, and the first element after sorting - whose metric is minimal over all
results - is the best result, whose prediction frame is handed to the headline
forecast plot. -/
theorem c6_sorted_best_first (rs : List SingleResult) (e : AccuracyEstimator)
    (b : SingleResult) (rest : List SingleResult)
    (h : sortModelResults rs e = b :: rest) :
    (sortModelResults rs e).Perm rs ∧
    List.Sorted (leBy e) (sortModelResults rs e) ∧
    (create_scenario_children rs e).best_prediction = Option.some b.prediction ∧
    (create_scenario_children rs e).results.length = rs.length ∧
    (create_scenario_children rs e).testing_performances =
      (sortModelResults rs e).map (fun r => r.testing_performances) ∧
    ∀ r ∈ rs, leBy e b r := by
  have hperm : (sortModelResults rs e).Perm rs := List.perm_insertionSort (leBy e) rs
  have hsorted : List.Sorted (leBy e) (sortModelResults rs e) :=
    List.sorted_insertionSort (leBy e) rs
  refine ⟨hperm, hsorted, ?_, ?_, ?_, ?_⟩
  · simp [create_scenario_children, h]
  · have : (create_scenario_children rs e).results.length = (b :: rest).length := by
      simp [create_scenario_children, h]
    rw [this, ← h]
    exact hperm.length_eq
  · simp [create_scenario_children, h]
  · intro r hr
    have hr2 : r ∈ b :: rest := (h ▸ hperm.symm).mem_iff.mp hr
    rcases List.mem_cons.mp hr2 with hm | hm
    · subst hm
      exact le_refl _
    · rw [h] at hsorted
      exact List.rel_of_sorted_cons hsorted r hm

/-- C6 witness: a concrete two-result collection under the mae estimator; the
result with the smaller MAE becomes the head. -/
theorem c6_sorted_best_first_witness :
    (sortModelResults
        [⟨⟨[("yhat", [PValue.num 7])]⟩, ⟨0, 3, 9, 3, 1⟩⟩,
         ⟨⟨[("yhat", [PValue.num 8])]⟩, ⟨5, 1, 1, 1, 0⟩⟩] AccuracyEstimator.mae).Perm
      [⟨⟨[("yhat", [PValue.num 7])]⟩, ⟨0, 3, 9, 3, 1⟩⟩,
       ⟨⟨[("yhat", [PValue.num 8])]⟩, ⟨5, 1, 1, 1, 0⟩⟩] ∧
    List.Sorted (leBy AccuracyEstimator.mae)
      (sortModelResults
        [⟨⟨[("yhat", [PValue.num 7])]⟩, ⟨0, 3, 9, 3, 1⟩⟩,
         ⟨⟨[("yhat", [PValue.num 8])]⟩, ⟨5, 1, 1, 1, 0⟩⟩] AccuracyEstimator.mae) ∧
    (create_scenario_children
        [⟨⟨[("yhat", [PValue.num 7])]⟩, ⟨0, 3, 9, 3, 1⟩⟩,
         ⟨⟨[("yhat", [PValue.num 8])]⟩, ⟨5, 1, 1, 1, 0⟩⟩] AccuracyEstimator.mae).best_prediction =
      Option.some (⟨[("yhat", [PValue.num 8])]⟩ : PredFrame) ∧
    (create_scenario_children
        [⟨⟨[("yhat", [PValue.num 7])]⟩, ⟨0, 3, 9, 3, 1⟩⟩,
         ⟨⟨[("yhat", [PValue.num 8])]⟩, ⟨5, 1, 1, 1, 0⟩⟩] AccuracyEstimator.mae).results.length = 2 ∧
    (create_scenario_children
        [⟨⟨[("yhat", [PValue.num 7])]⟩, ⟨0, 3, 9, 3, 1⟩⟩,
         ⟨⟨[("yhat", [PValue.num 8])]⟩, ⟨5, 1, 1, 1, 0⟩⟩] AccuracyEstimator.mae).testing_performances =
      (sortModelResults
        [⟨⟨[("yhat", [PValue.num 7])]⟩, ⟨0, 3, 9, 3, 1⟩⟩,
         ⟨⟨[("yhat", [PValue.num 8])]⟩, ⟨5, 1, 1, 1, 0⟩⟩] AccuracyEstimator.mae).map
        (fun r => r.testing_performances) ∧
    ∀ r ∈ [(⟨⟨[("yhat", [PValue.num 7])]⟩, ⟨0, 3, 9, 3, 1⟩⟩ : SingleResult),
           ⟨⟨[("yhat", [PValue.num 8])]⟩, ⟨5, 1, 1, 1, 0⟩⟩],
      leBy AccuracyEstimator.mae ⟨⟨[("yhat", [PValue.num 8])]⟩, ⟨5, 1, 1, 1, 0⟩⟩ r := by
  have h := c6_sorted_best_first
    [⟨⟨[("yhat", [PValue.num 7])]⟩, ⟨0, 3, 9, 3, 1⟩⟩,
     ⟨⟨[("yhat", [PValue.num 8])]⟩, ⟨5, 1, 1, 1, 0⟩⟩] AccuracyEstimator.mae
    ⟨⟨[("yhat", [PValue.num 8])]⟩, ⟨5, 1, 1, 1, 0⟩⟩
    [⟨⟨[("yhat", [PValue.num 7])]⟩, ⟨0, 3, 9, 3, 1⟩⟩] (by decide)
  obtain ⟨h1, h2, h3, h4, h5, h6⟩ := h
  exact ⟨h1, h2, h3, by rw [h4]; rfl, h5, h6⟩

/-! ## Claim C7 -/

/-- C7 counterexample: a TrainingWindowResult is NOT immutable after creation.
The reporting layer holds the best result's prediction frame by reference and
performance_plot overwrites its first column with the string nan: running the
reporting step on a single window result whose yhat column is [1, 2] leaves
the stored result with yhat = [nan, nan], different from the prediction it was
created with. -/
theorem c7_mutation_counterexample :
    (create_scenario_children
        [⟨⟨[("yhat", [PValue.num 1, PValue.num 2])]⟩, ⟨0, 1, 1, 1, 0⟩⟩]
        AccuracyEstimator.mae).results =
      [⟨⟨[("yhat", [PValue.str "nan", PValue.str "nan"])]⟩, ⟨0, 1, 1, 1, 0⟩⟩] ∧
    (⟨[("yhat", [PValue.str "nan", PValue.str "nan"])]⟩ : PredFrame) ≠
      (⟨[("yhat", [PValue.num 1, PValue.num 2])]⟩ : PredFrame) := by
  refine ⟨by decide, by decide⟩

/-- C7 amended: after the reporting step every result's performance metrics
are unchanged and every result other than the best (first after sorting)
keeps its prediction object untouched; only the best result's prediction
frame is modified - performance_plot overwrites its first column with the
string nan, while the headline forecast plot received the frame before that
mutation. -/
theorem c7_only_best_prediction_mutated (rs : List SingleResult) (e : AccuracyEstimator) :
    ((create_scenario_children rs e).results.map fun r => r.testing_performances) =
      ((sortModelResults rs e).map fun r => r.testing_performances) ∧
    (create_scenario_children rs e).results.tail = (sortModelResults rs e).tail ∧
    (create_scenario_children rs e).results.head? =
      (sortModelResults rs e).head?.map mutateBestPrediction := by
  cases hs : sortModelResults rs e with
  | nil => simp [create_scenario_children, hs]
  | cons b rest => simp [create_scenario_children, hs, mutateBestPrediction]
